import Mathlib

/-!
Verification development for the paper-pipeline repository.

Strings whose character-level content matters (sanitization, author
serialization and re-parsing) are embedded as lists of Unicode code points
(`List Nat`).  Identifiers, URLs and titles, whose content is only compared
for equality or truthiness, are embedded as Lean `String`.  Fallible Python
code is embedded as `Except`-returning functions; a Python exception that
escapes an operation is an `Except.error` value.  The database is a list of
paper rows keyed by id; a SQLModel `session.get`/`session.commit` pair is a
lookup plus an in-place replacement.
-/

namespace PaperAgent

/-- Code-point string: one Python `str` value, character by character. -/
abbrev PyStr := List Nat

/-- Code points of a Lean string literal, used to build concrete inputs. -/
def strCodes (s : String) : PyStr := s.toList.map Char.toNat

/-- Lone-surrogate code points, the ones `encode("utf-8", "ignore")` drops. -/
def isSurrogate (c : Nat) : Bool := 55296 ≤ c && c ≤ 57343

/-- Embedding of `sanitize_text` (src/utils.py).  The null-byte pass models
`text.replace("\x00", "")` behind its `if "\x00" in text` guard; the second
pass models `text.encode("utf-8", "ignore").decode("utf-8")`, which drops
exactly the lone-surrogate code points and round-trips every other scalar
value.  The `except` fallback of the source is unreachable because the
encode/decode pair never raises on a Python `str`, so it has no counterpart
here. -/
def sanitize_text : Option PyStr → Option PyStr
  | none => none
  | some text =>
    let text := if text.contains 0 then text.filter (fun c => c != 0) else text
    some (text.filter (fun c => !isSurrogate c))

theorem sanitize_text_some (t : PyStr) :
    sanitize_text (some t) =
      some ((t.filter fun c => c != 0).filter fun c => !isSurrogate c) := by
  show some (List.filter _ (if t.contains 0 then _ else _)) = _
  by_cases h : t.contains 0
  · rw [if_pos h]
  · rw [if_neg h]
    have ht : t.filter (fun c => c != 0) = t := by
      rw [List.filter_eq_self]
      intro a ha
      simp only [bne_iff_ne, ne_eq]
      intro h0
      subst h0
      exact h (by simpa [List.contains, List.elem_iff] using ha)
    rw [ht]

/-- Claim C7: `sanitize_text` is total (defined for `None` and for every
string, including ones with null bytes and lone surrogates, and it returns
a string exactly when given one), idempotent, and its output contains no
null byte. -/
theorem sanitize_text_total_idempotent (x : Option PyStr) :
    sanitize_text (sanitize_text x) = sanitize_text x ∧
    (sanitize_text x).isSome = x.isSome ∧
    ∀ l, sanitize_text x = some l → ¬ (0 ∈ l) := by
  match x with
  | none => exact ⟨rfl, rfl, by intro l hl; cases hl⟩
  | some t =>
    rw [sanitize_text_some]
    refine ⟨?_, rfl, ?_⟩
    · rw [sanitize_text_some]
      congr 1
      have h1 : ((t.filter fun c => c != 0).filter fun c => !isSurrogate c).filter
          (fun c => c != 0) = (t.filter fun c => c != 0).filter fun c => !isSurrogate c := by
        rw [List.filter_eq_self]
        intro a ha
        have := (List.mem_filter.mp ha).1
        exact (List.mem_filter.mp this).2
      rw [h1, List.filter_filter]
      apply List.filter_congr
      intro a ha
      simp [and_comm]
    · intro l hl h0
      have hl2 : l = (t.filter fun c => c != 0).filter fun c => !isSurrogate c :=
        (Option.some_inj.mp hl).symm
      subst hl2
      have := (List.mem_filter.mp h0).1
      have := (List.mem_filter.mp this).2
      simp at this

/-- Witness for C7 at a concrete input holding a null byte and a lone
surrogate. -/
theorem sanitize_text_witness :
    sanitize_text (sanitize_text (some [72, 0, 55296, 73])) =
      sanitize_text (some [72, 0, 55296, 73]) ∧ ¬ (0 ∈ [72, 73]) := by
  refine ⟨(sanitize_text_total_idempotent (some [72, 0, 55296, 73])).1, ?_⟩
  exact (sanitize_text_total_idempotent (some [72, 0, 55296, 73])).2.2 [72, 73] (by decide)

/-- Pipeline states, the distinct string constants stored in `Paper.status`
(src/models.py line 28). -/
inductive Status where
  | NEW | SCORED | FILTERED | SUMMARIZED | PUSHED | ERROR
deriving DecidableEq, Repr

/-- Embedding of the `Paper` row (src/models.py).  Identifiers, URLs and
titles are Lean strings (only equality and emptiness are ever used on
them); free-text fields whose characters matter are code-point lists; the
publication timestamp is seconds since the epoch. -/
structure Paper where
  id : String
  title : String := ""
  authors : PyStr := []
  pdf_url : String := ""
  published_at : Nat := 0
  full_text : Option PyStr := none
  affiliations : Option PyStr := none
  main_company : Option PyStr := none
  main_university : Option PyStr := none
  main_affiliation : Option PyStr := none
  score : Option Int := none
  user_score : Option Int := none
  score_reason : Option PyStr := none
  summary_personalized : Option PyStr := none
  status : Status := Status.NEW
  created_at : Nat := 0
  updated_at : Nat := 0
deriving DecidableEq, Repr

/-- The paper table: rows in storage order. -/
abbrev DB := List Paper

/-- Embedding of `session.get(Paper, pid)`: the row with the given primary
key. -/
def dbGet (db : DB) (pid : String) : Option Paper :=
  db.find? (fun p => p.id = pid)

/-- Embedding of `session.add(db_paper); session.commit()` for a row fetched
by primary key: replace the stored row having the same id. -/
def dbPut (db : DB) (q : Paper) : DB :=
  db.map (fun p => if p.id = q.id then q else p)

theorem dbGet_dbPut (db : DB) (pid : String) (q : Paper)
    (hq : q.id = pid) (hs : (dbGet db pid).isSome) :
    dbGet (dbPut db q) pid = some q := by
  induction db with
  | nil => simp [dbGet] at hs
  | cons p rest ih =>
    by_cases hp : p.id = pid
    · subst hq
      simp [dbGet, dbPut, List.find?, hp]
    · have hq2 : ¬ (p.id = q.id) := by rw [hq]; exact hp
      have hs2 : (dbGet rest pid).isSome := by
        simpa [dbGet, List.find?, hp] using hs
      have := ih hs2
      simpa [dbGet, dbPut, List.find?, hp, hq2] using this

theorem dbGet_id (db : DB) (pid : String) (p : Paper)
    (h : dbGet db pid = some p) : p.id = pid := by
  have := List.find?_some h
  simpa using this

/-- Embedding of `ArxivFetcher.filter_new_papers` (src/services/arxiv.py
lines 218-241): early-return on an empty batch, one existence query for all
candidate ids (`SELECT id WHERE id IN paper_ids`, here the stored ids that
occur among the candidates), then an order-preserving pass keeping papers
whose id is not in the resulting set. -/
def filter_new_papers (storedIds : List String) (papers : List Paper) : List Paper :=
  if papers.isEmpty then []
  else
    let paper_ids := papers.map (fun p => p.id)
    let existing_ids := storedIds.filter (fun i => paper_ids.contains i)
    papers.filter (fun p => !existing_ids.contains p.id)

/-- Claim C9: the deduplicator returns exactly the candidate papers whose id
is not already stored, in input order (it equals a single order-preserving
filter of the batch); an empty batch yields an empty result.  The existence
check is a single query over all candidate ids, embedded as the one
`existing_ids` computation inside `filter_new_papers`. -/
theorem filter_new_papers_spec (storedIds : List String) (papers : List Paper) :
    filter_new_papers storedIds papers =
      papers.filter (fun p => !storedIds.contains p.id) := by
  unfold filter_new_papers
  by_cases hemp : papers.isEmpty
  · rw [if_pos hemp]
    rw [List.isEmpty_iff] at hemp
    simp [hemp]
  · rw [if_neg hemp]
    apply List.filter_congr
    intro p hp
    have hmem : p.id ∈ papers.map (fun p => p.id) := List.mem_map_of_mem _ hp
    have key : (storedIds.filter
        (fun i => (papers.map (fun p => p.id)).contains i)).contains p.id =
        storedIds.contains p.id := by
      by_cases hst : storedIds.contains p.id
      · rw [hst]
        have hpid : p.id ∈ storedIds := by
          simpa [List.contains, List.elem_iff] using hst
        have hin : p.id ∈ storedIds.filter
            (fun i => (papers.map (fun p => p.id)).contains i) :=
          List.mem_filter.mpr
            ⟨hpid, by simpa [List.contains, List.elem_iff] using hmem⟩
        simpa [List.contains, List.elem_iff] using hin
      · have hst2 : storedIds.contains p.id = false := by
          exact Bool.not_eq_true _ ▸ eq_false_of_ne_true hst
        rw [hst2]
        have hnotin : ¬ p.id ∈ storedIds.filter
            (fun i => (papers.map (fun p => p.id)).contains i) := by
          intro hin
          exact hst (by
            simpa [List.contains, List.elem_iff] using (List.mem_filter.mp hin).1)
        simpa [List.contains, List.elem_iff] using hnotin
    rw [key]

/-- The loop body of `check_and_migrate` (src/migrations.py lines 141-165):
`for i in range(current_version, target)`, run `MIGRATIONS[i]`; on success
commit the version bump to `i + 1` and continue; on any exception log and
`break`, leaving the version at the last committed value.  A migration acts
on an abstract transactional state `α` and raises by returning
`Except.error`.  The result is (final version, final state, the 1-based
indices whose migration completed, in execution order). -/
def migrateList {α : Type} (migs : List (α → Except Unit α)) (ver : Nat)
    (db : α) : Nat × α × List Nat :=
  match migs with
  | [] => (ver, db, [])
  | m :: rest =>
    match m db with
    | Except.ok db2 =>
      let r := migrateList rest (ver + 1) db2
      (r.1, r.2.1, (ver + 1) :: r.2.2)
    | Except.error _ => (ver, db, [])

/-- Embedding of `check_and_migrate` (src/migrations.py lines 111-167):
read the current version (0 when there is no `SchemaVersion` record), and
when it is below the number of migrations, run the loop above.  The
function returns a value rather than an `Except`: the source catches every
migration exception inside the loop and never re-raises. -/
def check_and_migrate {α : Type} (migs : List (α → Except Unit α))
    (versionRecord : Option Nat) (db : α) : Nat × α × List Nat :=
  let current_version := versionRecord.getD 0
  let target_version := migs.length
  if current_version < target_version then
    migrateList (migs.drop current_version) current_version db
  else
    (current_version, db, [])

theorem migrateList_spec {α : Type} :
    ∀ (migs : List (α → Except Unit α)) (ver : Nat) (db : α),
      (migrateList migs ver db).2.2 =
        List.range' (ver + 1) (migrateList migs ver db).2.2.length ∧
      (migrateList migs ver db).1 = ver + (migrateList migs ver db).2.2.length ∧
      ∀ h : (migrateList migs ver db).2.2.length < migs.length,
        ∃ e, (migs.get ⟨(migrateList migs ver db).2.2.length, h⟩)
          (migrateList migs ver db).2.1 = Except.error e := by
  intro migs
  induction migs with
  | nil =>
    intro ver db
    refine ⟨by simp [migrateList], by simp [migrateList], ?_⟩
    intro hb
    simp [migrateList] at hb
  | cons m rest ih =>
    intro ver db
    cases hrun : m db with
    | ok db2 =>
      have hrec := ih (ver + 1) db2
      simp only [migrateList, hrun]
      refine ⟨?_, ?_, ?_⟩
      · rw [List.length_cons, List.range'_succ]
        exact congrArg _ hrec.1
      · rw [List.length_cons]
        have h21 := hrec.2.1
        omega
      · intro hb
        simp only [List.length_cons] at hb
        exact hrec.2.2 (by omega)
    | error e =>
      simp only [migrateList, hrun]
      refine ⟨by simp, by simp, ?_⟩
      intro hb
      exact ⟨e, hrun⟩

/-- Claim C6: from current version `v` (0 without a version record), the
runner executes exactly the migrations with 1-based index `v+1, v+2, ...`
in ascending order, bumping the committed version to the index after each
success; when the run stops short of the last migration, the next
migration (the one after the last success) fails on the state it was
given, no later migration is attempted, the stored version is the index of
the last successful migration, and the failure is not raised to the caller
(`check_and_migrate` returns a plain value in every case). -/
theorem check_and_migrate_spec {α : Type} (migs : List (α → Except Unit α))
    (versionRecord : Option Nat) (db : α) :
    (check_and_migrate migs versionRecord db).2.2 =
      List.range' (versionRecord.getD 0 + 1)
        (check_and_migrate migs versionRecord db).2.2.length ∧
    (check_and_migrate migs versionRecord db).1 =
      versionRecord.getD 0 + (check_and_migrate migs versionRecord db).2.2.length ∧
    ∀ h : versionRecord.getD 0 +
        (check_and_migrate migs versionRecord db).2.2.length < migs.length,
      ∃ e, (migs.get ⟨versionRecord.getD 0 +
          (check_and_migrate migs versionRecord db).2.2.length, h⟩)
        (check_and_migrate migs versionRecord db).2.1 = Except.error e := by
  unfold check_and_migrate
  by_cases h : versionRecord.getD 0 < migs.length
  · simp only [if_pos h]
    have hm := migrateList_spec (migs.drop (versionRecord.getD 0))
      (versionRecord.getD 0) db
    refine ⟨hm.1, hm.2.1, ?_⟩
    intro hb
    have hlen : (migrateList (migs.drop (versionRecord.getD 0))
        (versionRecord.getD 0) db).2.2.length <
        (migs.drop (versionRecord.getD 0)).length := by
      rw [List.length_drop]
      omega
    obtain ⟨e, he⟩ := hm.2.2 hlen
    refine ⟨e, ?_⟩
    rw [List.get_eq_getElem] at he ⊢
    rw [List.getElem_drop] at he
    exact he
  · simp only [if_neg h]
    refine ⟨by simp, by simp, ?_⟩
    intro hb
    simp only [List.length_nil, Nat.add_zero] at hb
    exact absurd hb h

/-- A migration that succeeds without touching the state, for the witness. -/
def migOk : Nat → Except Unit Nat := fun n => Except.ok (n + 1)

/-- A migration that always raises, for the witness. -/
def migFail : Nat → Except Unit Nat := fun _ => Except.error ()

/-- Witness for C6, the end-to-end scenario of the spec: two migrations
starting from no version record, where the second throws; the version ends
at 1, only migration 1 ran, and the failing migration is migration 2. -/
theorem check_and_migrate_witness :
    (check_and_migrate [migOk, migFail] none 0).1 = 0 + 1 ∧
    (check_and_migrate [migOk, migFail] none 0).2.2 = List.range' 1 1 ∧
    ∃ e, ([migOk, migFail].get ⟨1, by decide⟩)
      ((check_and_migrate [migOk, migFail] none 0).2.1) = Except.error e := by
  have h3 := (check_and_migrate_spec [migOk, migFail] none 0).2.2 (by decide)
  refine ⟨by decide, by decide, ?_⟩
  obtain ⟨e, he⟩ := h3
  exact ⟨e, he⟩

/-- Lowercase hex digit, as CPython prints in a `\xNN` escape. -/
def hexDigit (n : Nat) : Nat := if n < 10 then 48 + n else 87 + n

/-- One character of CPython `repr` output for a string delimited by
`delim`: backslash and the delimiter are backslash-escaped, tab, newline
and carriage return print as two-character escapes, other characters below
space (and DEL) print as `\xNN`, and the rest print as themselves.  This
is exact for code points below 128; points at or above 128 pass through
unchanged (CPython escapes the non-printable ones among them), and every
theorem below confines its inputs to the ASCII range where the model is
exact. -/
def escChar (delim c : Nat) : List Nat :=
  if c = 92 then [92, 92]
  else if c = delim then [92, c]
  else if c = 10 then [92, 110]
  else if c = 13 then [92, 114]
  else if c = 9 then [92, 116]
  else if c < 32 || c = 127 then [92, 120, hexDigit (c / 16), hexDigit (c % 16)]
  else [c]

/-- CPython quote choice for `repr` of a string: a single quote, except
when the string contains a single quote and no double quote. -/
def reprDelim (s : PyStr) : Nat :=
  if s.contains 39 && !(s.contains 34) then 34 else 39

/-- CPython `repr` of one string. -/
def pyRepr (s : PyStr) : PyStr :=
  let d := reprDelim s
  [d] ++ s.flatMap (escChar d) ++ [d]

/-- The comma-space joining `str` performs on list elements. -/
def joinCommaSpace : List PyStr → PyStr
  | [] => []
  | [x] => x
  | x :: y :: xs => x ++ [44, 32] ++ joinCommaSpace (y :: xs)

/-- CPython `str` of a list of strings: bracketed, comma-space separated
`repr` of each element. -/
def pyStrOfList (xs : List PyStr) : PyStr :=
  [91] ++ joinCommaSpace (xs.map pyRepr) ++ [93]

/-- Embedding of the author serialization at src/services/arxiv.py line 72
(and line 207): `str(authors).replace("'", '"')`. -/
def serialize_authors (authors : List PyStr) : PyStr :=
  (pyStrOfList authors).map (fun c => if c = 39 then 34 else c)

/-- JSON whitespace. -/
def isJsonWs (c : Nat) : Bool := c = 32 || c = 9 || c = 10 || c = 13

def skipWs : PyStr → PyStr
  | [] => []
  | c :: rest => if isJsonWs c then skipWs rest else c :: rest

/-- The single-character JSON string escapes. -/
def jsonEscDecode (e : Nat) : Option Nat :=
  if e = 34 then some 34
  else if e = 92 then some 92
  else if e = 47 then some 47
  else if e = 98 then some 8
  else if e = 102 then some 12
  else if e = 110 then some 10
  else if e = 114 then some 13
  else if e = 116 then some 9
  else none

def hexVal (c : Nat) : Option Nat :=
  if 48 ≤ c && c ≤ 57 then some (c - 48)
  else if 65 ≤ c && c ≤ 70 then some (c - 55)
  else if 97 ≤ c && c ≤ 102 then some (c - 87)
  else none

/-- JSON string body after the opening quote: returns the decoded string
and the input remaining after the closing quote.  Unknown escapes (such as
the `\xNN` CPython emits for control characters) and raw control
characters are errors, exactly as in the strict-mode `json.loads`. -/
def parseJsonStringBody : PyStr → Option (PyStr × PyStr)
  | [] => none
  | c :: rest =>
    if c = 34 then some ([], rest)
    else if c = 92 then
      match rest with
      | [] => none
      | e :: rest2 =>
        if e = 117 then
          match rest2 with
          | h1 :: h2 :: h3 :: h4 :: rest3 =>
            match hexVal h1, hexVal h2, hexVal h3, hexVal h4 with
            | some a, some b, some c2, some d =>
              (parseJsonStringBody rest3).map
                (fun p => ((((a * 16 + b) * 16 + c2) * 16 + d) :: p.1, p.2))
            | _, _, _, _ => none
          | _ => none
        else
          match jsonEscDecode e with
          | some ch => (parseJsonStringBody rest2).map (fun p => (ch :: p.1, p.2))
          | none => none
    else if c < 32 then none
    else (parseJsonStringBody rest).map (fun p => (c :: p.1, p.2))

def parseJsonString (s : PyStr) : Option (PyStr × PyStr) :=
  match s with
  | [] => none
  | c :: rest => if c = 34 then parseJsonStringBody rest else none

/-- After one array element: either the closing bracket, or a comma and a
further string element.  Fuel bounds the recursion; each step consumes at
least one character, so seeding it with the input length is exhaustive. -/
def parseMoreItems : Nat → PyStr → Option (List PyStr × PyStr)
  | 0, _ => none
  | fuel + 1, s =>
    match skipWs s with
    | [] => none
    | c :: rest =>
      if c = 93 then some ([], rest)
      else if c = 44 then
        match parseJsonString (skipWs rest) with
        | some (str, rest2) =>
          (parseMoreItems fuel rest2).map (fun p => (str :: p.1, p.2))
        | none => none
      else none

/-- Model of `json.loads` restricted to documents that are JSON arrays of
strings, the only well-formed shape the stored `authors` column can hold:
any other document is a decode error.  Surrogate-pair combination for
`\uXXXX` escapes is not modelled (no stated theorem reaches a `\u`
escape). -/
def json_loads_str_array (s : PyStr) : Option (List PyStr) :=
  match skipWs s with
  | [] => none
  | c :: rest =>
    if c = 91 then
      match skipWs rest with
      | [] => none
      | c2 :: rest2 =>
        if c2 = 93 then
          if (skipWs rest2).isEmpty then some [] else none
        else
          match parseJsonString (c2 :: rest2) with
          | some (str, rest3) =>
            match parseMoreItems (rest3.length + 1) rest3 with
            | some (strs, rest4) =>
              if (skipWs rest4).isEmpty then some (str :: strs) else none
            | none => none
          | none => none
    else none

/-- Python `s.strip(chars)`: remove the characters of the set from both
ends. -/
def pyStripChars (chars : List Nat) (s : PyStr) : PyStr :=
  ((s.dropWhile (fun c => chars.contains c)).reverse.dropWhile
    (fun c => chars.contains c)).reverse

/-- First occurrence of a (non-empty) separator: the part before it and
the part after it. -/
def splitFirst (sep : PyStr) : PyStr → Option (PyStr × PyStr)
  | [] => none
  | c :: rest =>
    if sep.isPrefixOf (c :: rest) then some ([], (c :: rest).drop sep.length)
    else (splitFirst sep rest).map (fun p => (c :: p.1, p.2))

def splitSeqFuel (sep : PyStr) : Nat → PyStr → List PyStr
  | 0, s => [s]
  | fuel + 1, s =>
    match splitFirst sep s with
    | none => [s]
    | some (pre, post) => pre :: splitSeqFuel sep fuel post

/-- Python `s.split(sep)` for a non-empty separator. -/
def pySplit (sep s : PyStr) : List PyStr := splitSeqFuel sep (s.length + 1) s

/-- Embedding of the `Paper.authors_list` property (src/models.py lines
33-43): empty column gives `[]`; otherwise strict JSON decoding, and on a
decode error the repair path strips brackets, splits on the
quote-comma-space-quote delimiter, strips surrounding quotes and drops
entries that strip to nothing. -/
def authors_list (authors : PyStr) : List PyStr :=
  if authors.isEmpty then []
  else
    match json_loads_str_array authors with
    | some l => l
    | none =>
      let parts := pySplit [34, 44, 32, 34] (pyStripChars [91, 93] authors)
      parts.filterMap (fun p =>
        let q := pyStripChars [34] p
        if q.isEmpty then none else some q)

/-- Printable ASCII other than the two quote characters: the fragment in
which the `repr` model is exact and on which the amended round-trip claim
is stated. -/
def okChar (c : Nat) : Bool := 32 ≤ c && c ≤ 126 && c != 34 && c != 39

/-- The JSON-quoted form an all-`okChar` name assumes inside the serialized
column, after the quote replacement. -/
def quotedJ (n : PyStr) : PyStr := [34] ++ n.flatMap (escChar 39) ++ [34]

/-- The serialized tail after the first element: comma-space plus quoted
element, repeated. -/
def sepTail (names : List PyStr) : PyStr :=
  names.flatMap (fun n => [44, 32] ++ quotedJ n)

theorem sepTail_cons (m : PyStr) (r : List PyStr) :
    sepTail (m :: r) = 44 :: 32 :: (quotedJ m ++ sepTail r) := by
  simp [sepTail, List.flatMap_cons]

theorem quotedJ_append (m X : PyStr) :
    quotedJ m ++ X = 34 :: (m.flatMap (escChar 39) ++ (34 :: X)) := by
  simp [quotedJ, List.append_assoc]

theorem skipWs_cons_not_ws (c : Nat) (t : PyStr) (h : isJsonWs c = false) :
    skipWs (c :: t) = c :: t := by
  simp [skipWs, h]

theorem skipWs_cons_space (t : PyStr) : skipWs (32 :: t) = skipWs t := by
  simp [skipWs, isJsonWs]

theorem pjsb_quote (t : PyStr) : parseJsonStringBody (34 :: t) = some ([], t) := by
  rw [parseJsonStringBody.eq_def]
  rfl

theorem pjsb_backslash2 (t : PyStr) :
    parseJsonStringBody (92 :: 92 :: t) =
      (parseJsonStringBody t).map (fun p => (92 :: p.1, p.2)) := by
  conv_lhs => rw [parseJsonStringBody.eq_def]
  rfl

theorem pjsb_plain (c : Nat) (t : PyStr) (h1 : ¬ c = 34) (h2 : ¬ c = 92)
    (h3 : 32 ≤ c) :
    parseJsonStringBody (c :: t) =
      (parseJsonStringBody t).map (fun p => (c :: p.1, p.2)) := by
  conv_lhs => rw [parseJsonStringBody.eq_def]
  show (if c = 34 then some ([], t)
    else if c = 92 then _
    else if c < 32 then none
    else (parseJsonStringBody t).map (fun p => (c :: p.1, p.2))) = _
  rw [if_neg h1, if_neg h2, if_neg (by omega : ¬ c < 32)]

theorem parseJsonString_quote (t : PyStr) :
    parseJsonString (34 :: t) = parseJsonStringBody t := rfl

theorem parseMoreItems_93 (f : Nat) (t : PyStr) :
    parseMoreItems (f + 1) (93 :: t) = some ([], t) := by
  rw [parseMoreItems.eq_def]
  rfl

theorem parseMoreItems_comma (f : Nat) (u : PyStr) :
    parseMoreItems (f + 1) (44 :: u) =
      match parseJsonString (skipWs u) with
      | some (str, rest2) =>
        (parseMoreItems f rest2).map (fun p => (str :: p.1, p.2))
      | none => none := by
  conv_lhs => rw [parseMoreItems.eq_def]
  rfl

theorem json_loads_91_34 (v : PyStr) :
    json_loads_str_array (91 :: 34 :: v) =
      match parseJsonStringBody v with
      | some (str, rest3) =>
        (match parseMoreItems (rest3.length + 1) rest3 with
        | some (strs, rest4) =>
          if (skipWs rest4).isEmpty then some (str :: strs) else none
        | none => none)
      | none => none := by
  conv_lhs => rw [json_loads_str_array.eq_def]
  rfl

theorem escChar_ok (c : Nat) (h : okChar c = true) :
    escChar 39 c = if c = 92 then [92, 92] else [c] := by
  simp only [okChar, Bool.and_eq_true, bne_iff_ne, ne_eq, decide_eq_true_eq] at h
  obtain ⟨⟨⟨h32, h126⟩, h34⟩, h39⟩ := h
  unfold escChar
  by_cases h92 : c = 92
  · rw [if_pos h92, if_pos h92]
  · rw [if_neg h92, if_neg h39, if_neg (by omega : ¬ c = 10),
      if_neg (by omega : ¬ c = 13), if_neg (by omega : ¬ c = 9),
      if_neg (show ¬ (c < 32 || c = 127) = true by
        simp only [Bool.or_eq_true, decide_eq_true_eq, not_or]
        omega), if_neg h92]

theorem parse_body_ok (n : PyStr) (hok : n.all okChar = true) :
    ∀ t, parseJsonStringBody (n.flatMap (escChar 39) ++ (34 :: t)) = some (n, t) := by
  induction n with
  | nil =>
    intro t
    simp only [List.flatMap_nil, List.nil_append]
    exact pjsb_quote t
  | cons c n2 ih =>
    intro t
    simp only [List.all_cons, Bool.and_eq_true] at hok
    have hrec := ih hok.2 t
    rw [List.flatMap_cons, escChar_ok c hok.1, List.append_assoc]
    have hc := hok.1
    simp only [okChar, Bool.and_eq_true, bne_iff_ne, ne_eq, decide_eq_true_eq] at hc
    by_cases h92 : c = 92
    · subst h92
      rw [if_pos rfl]
      simp only [List.cons_append, List.nil_append]
      rw [pjsb_backslash2, hrec]
      rfl
    · rw [if_neg h92]
      simp only [List.cons_append, List.nil_append]
      rw [pjsb_plain c _ hc.1.2 h92 hc.1.1.1, hrec]
      rfl

theorem sepTail_length_ge (names : List PyStr) :
    names.length ≤ (sepTail names).length := by
  induction names with
  | nil => simp [sepTail]
  | cons n rest ih =>
    rw [sepTail_cons]
    simp only [List.length_cons, List.length_append]
    omega

theorem parseMoreItems_sepTail (names : List PyStr)
    (hok : ∀ n ∈ names, n.all okChar = true) :
    ∀ fuel, names.length + 1 ≤ fuel →
      parseMoreItems fuel (sepTail names ++ [93]) = some (names, []) := by
  induction names with
  | nil =>
    intro fuel hf
    match fuel, hf with
    | f + 1, _ =>
      show parseMoreItems (f + 1) (sepTail [] ++ [93]) = _
      rw [show (sepTail [] ++ [93] : PyStr) = 93 :: [] by simp [sepTail]]
      exact parseMoreItems_93 f []
  | cons m rest ih =>
    intro fuel hf
    match fuel, hf with
    | f + 1, hf =>
      have hm := hok m (by simp)
      have hrest : ∀ n ∈ rest, n.all okChar = true := by
        intro n hn; exact hok n (by simp [hn])
      rw [sepTail_cons, List.cons_append, List.cons_append, List.append_assoc,
        quotedJ_append]
      rw [parseMoreItems_comma]
      rw [skipWs_cons_space, skipWs_cons_not_ws 34 _ (by decide)]
      rw [parseJsonString_quote, parse_body_ok m hm]
      show (parseMoreItems f (sepTail rest ++ [93])).map
        (fun p => (m :: p.1, p.2)) = some (m :: rest, [])
      have hlen : rest.length + 1 ≤ f := by
        simp only [List.length_cons] at hf
        omega
      rw [ih hrest f hlen]
      rfl

theorem joinCommaSpace_cons2 (x y : PyStr) (xs : List PyStr) :
    joinCommaSpace (x :: y :: xs) = x ++ [44, 32] ++ joinCommaSpace (y :: xs) := rfl

theorem joinCommaSpace_one (x : PyStr) : joinCommaSpace [x] = x := rfl

theorem join_map_quoted (names : List PyStr) :
    ∀ q : PyStr, joinCommaSpace (q :: names.map quotedJ) = q ++ sepTail names := by
  induction names with
  | nil =>
    intro q
    rw [show (([] : List PyStr).map quotedJ) = [] from rfl, joinCommaSpace_one]
    simp [sepTail]
  | cons m r ih =>
    intro q
    rw [List.map_cons, joinCommaSpace_cons2, ih (quotedJ m), sepTail_cons]
    simp [List.append_assoc]

theorem json_loads_serialized (names : List PyStr)
    (hok : ∀ n ∈ names, n.all okChar = true) :
    json_loads_str_array ([91] ++ joinCommaSpace (names.map quotedJ) ++ [93]) =
      some names := by
  cases names with
  | nil =>
    show json_loads_str_array ([91] ++ joinCommaSpace [] ++ [93]) = some []
    decide
  | cons n rest =>
    have hn := hok n (by simp)
    have hrest : ∀ m ∈ rest, m.all okChar = true := by
      intro m hm; exact hok m (by simp [hm])
    rw [List.map_cons]
    rw [show joinCommaSpace (quotedJ n :: rest.map quotedJ) =
        quotedJ n ++ sepTail rest from join_map_quoted rest (quotedJ n)]
    rw [show ([91] ++ (quotedJ n ++ sepTail rest) ++ [93] : PyStr) =
        91 :: (quotedJ n ++ (sepTail rest ++ [93])) by
      simp [List.append_assoc]]
    rw [quotedJ_append]
    rw [json_loads_91_34]
    rw [parse_body_ok n hn]
    show (match parseMoreItems ((sepTail rest ++ [93]).length + 1)
        (sepTail rest ++ [93]) with
      | some (strs, rest4) =>
        if (skipWs rest4).isEmpty then some (n :: strs) else none
      | none => none) = some (n :: rest)
    have hfuel : rest.length + 1 ≤ (sepTail rest ++ [93]).length + 1 := by
      have := sepTail_length_ge rest
      simp only [List.length_append, List.length_cons, List.length_nil]
      omega
    rw [parseMoreItems_sepTail rest hrest _ hfuel]
    rfl

theorem pyRepr_map_replace (n : PyStr) (hn : n.all okChar = true) :
    (pyRepr n).map (fun c => if c = 39 then 34 else c) = quotedJ n := by
  have hdelim : reprDelim n = 39 := by
    have hnc : n.contains 39 = false := by
      cases hcc : n.contains 39 with
      | false => rfl
      | true =>
        exfalso
        have h39mem : (39 : Nat) ∈ n := by
          simpa [List.contains, List.elem_iff] using hcc
        rw [List.all_eq_true] at hn
        have := hn 39 h39mem
        simp [okChar] at this
    unfold reprDelim
    rw [hnc]
    rfl
  unfold pyRepr
  rw [hdelim]
  simp only [List.map_append, quotedJ]
  rw [show List.map (fun c => if c = 39 then 34 else c) [39] = ([34] : PyStr) by decide]
  congr 1
  congr 1
  rw [List.map_flatMap]
  apply List.flatMap_congr
  intro c hc
  have hokc : okChar c = true := by
    rw [List.all_eq_true] at hn
    exact hn c hc
  rw [escChar_ok c hokc]
  have hprops := hokc
  simp only [okChar, Bool.and_eq_true, bne_iff_ne, ne_eq, decide_eq_true_eq] at hprops
  by_cases h92 : c = 92
  · subst h92
    decide
  · simp only [if_neg h92, List.map_cons, List.map_nil]
    rw [if_neg hprops.2]

theorem join_map_repr :
    ∀ names : List PyStr, (∀ n ∈ names, n.all okChar = true) →
      (joinCommaSpace (names.map pyRepr)).map (fun c => if c = 39 then 34 else c) =
        joinCommaSpace (names.map quotedJ) := by
  intro names
  induction names with
  | nil => intro _; rfl
  | cons n rest ih =>
    intro hok
    have hn := hok n (by simp)
    have hrest : ∀ m ∈ rest, m.all okChar = true := by
      intro m hm; exact hok m (by simp [hm])
    cases rest with
    | nil =>
      simp only [List.map_cons, List.map_nil, joinCommaSpace_one]
      exact pyRepr_map_replace n hn
    | cons m r =>
      simp only [List.map_cons]
      rw [joinCommaSpace_cons2, joinCommaSpace_cons2]
      simp only [List.map_append]
      rw [pyRepr_map_replace n hn]
      rw [show List.map (fun c => if c = 39 then 34 else c) [44, 32] =
        ([44, 32] : PyStr) by decide]
      have ihh := ih hrest
      simp only [List.map_cons] at ihh
      rw [ihh]

theorem serialize_authors_normal (names : List PyStr)
    (hok : ∀ n ∈ names, n.all okChar = true) :
    serialize_authors names = [91] ++ joinCommaSpace (names.map quotedJ) ++ [93] := by
  unfold serialize_authors pyStrOfList
  simp only [List.map_append]
  rw [show List.map (fun c => if c = 39 then 34 else c) [91] = ([91] : PyStr) by decide]
  rw [show List.map (fun c => if c = 39 then 34 else c) [93] = ([93] : PyStr) by decide]
  rw [join_map_repr names hok]

theorem authors_list_serialize (names : List PyStr)
    (hok : ∀ n ∈ names, n.all okChar = true) :
    authors_list (serialize_authors names) = names := by
  rw [serialize_authors_normal names hok]
  unfold authors_list
  rw [if_neg (by simp)]
  rw [json_loads_serialized names hok]

/-- Claim C10 counterexample: the single-author list whose name is the one
control character 7 contains neither a double quote nor an apostrophe, yet
serialization followed by the `authors_list` accessor does not return the
original list: CPython renders the name as the escape backslash-x-0-7,
which is not a valid JSON escape, and the repair path keeps those four
literal characters. -/
theorem authors_roundtrip_counterexample :
    ([7] : PyStr).all (fun c => c != 34 && c != 39) = true ∧
    authors_list (serialize_authors [[7]]) ≠ [[7]] := by decide

/-- Claim C10 (corrected): an author name containing a quote character
(here the apostrophe in the three-character name O, apostrophe, R) makes
the serialized column invalid JSON, so `authors_list` takes the repair
path and does not reproduce the original list; and, amended, for author
lists whose names consist of printable ASCII characters containing neither
quote character, serialization followed by `authors_list` returns the
original list exactly. -/
theorem authors_serialize_roundtrip :
    (json_loads_str_array (serialize_authors [[79, 39, 82]]) = none ∧
      authors_list (serialize_authors [[79, 39, 82]]) ≠ [[79, 39, 82]]) ∧
    ∀ names : List PyStr, (∀ n ∈ names, n.all okChar = true) →
      authors_list (serialize_authors names) = names := by
  refine ⟨by decide, ?_⟩
  intro names hok
  exact authors_list_serialize names hok

/-- Witness for C10 at the concrete two-author list Alice, Bob. -/
theorem authors_serialize_roundtrip_witness :
    authors_list (serialize_authors [[65, 108, 105, 99, 101], [66, 111, 98]]) =
      [[65, 108, 105, 99, 101], [66, 111, 98]] :=
  authors_serialize_roundtrip.2 [[65, 108, 105, 99, 101], [66, 111, 98]] (by decide)

/-- Python exceptions that escape the embedded operations. -/
inductive PyErr where
  | attributeError
  | unboundLocalError
deriving DecidableEq, Repr

/-- The evaluator result (`ScoreResponse`, src/services/llm.py lines
12-18). -/
structure ScoreResponse where
  score : Int
  relevance : Int := 0
  novelty : Int := 0
  clarity : Int := 0
  risk_flags : List PyStr := []
  one_line_reason : PyStr := []
deriving DecidableEq, Repr

/-- Library (pydantic) `model_dump_json` of the justification: the pipeline
only sanitizes and stores this text and no claim reads it back, so the
rendering keeps the score and the reason and abbreviates the rest. -/
def ScoreResponse.model_dump_json (sd : ScoreResponse) : PyStr :=
  [123] ++ strCodes "score: " ++ strCodes (toString sd.score) ++
    strCodes ", reason: " ++ [34] ++ sd.one_line_reason ++ [34, 125]

/-- Truthiness of an optional string: Python `if s:` is false for both
`None` and the empty string. -/
def pyTruthyStr (s : Option PyStr) : Bool :=
  match s with
  | none => false
  | some t => !t.isEmpty

/-- src/worker.py line 15. -/
def SCORE_THRESHOLD : Int := 85

/-- Embedding of `process_paper_score` (src/worker.py lines 19-64).
Inputs standing for the collaborators: `registry` is the set of author
names whose `Author` row has `is_important` true; `scoreRes` is what
`llm.score_paper` returned — `score_paper` catches its own errors and
returns `None` on evaluator failure.  The importance lookup itself sits in
a try/except whose body is total here.  Line 49 reads
`score_data.score` whenever an important author was found, which raises
AttributeError when `score_data` is `None`; the final persist block is
guarded by `if db_paper and score_data` and writes score, sanitized
justification and the SCORED/FILTERED status in one commit, leaving the
stored row untouched in every other case. -/
def process_paper_score (registry : List PyStr) (scoreRes : Option ScoreResponse)
    (paper : Paper) (db : DB) : Except PyErr DB :=
  if paper.user_score.isSome then Except.ok db
  else
    match (if (authors_list paper.authors).any (fun a => registry.contains a) then
        match scoreRes with
        | none => Except.error PyErr.attributeError
        | some sd =>
          Except.ok (some (if sd.score < 90 then { sd with score := 90 } else sd))
      else Except.ok scoreRes) with
    | Except.error e => Except.error e
    | Except.ok score_data =>
      match dbGet db paper.id, score_data with
      | some db_paper, some sd =>
        Except.ok (dbPut db { db_paper with
          score := some sd.score
          score_reason := sanitize_text (some sd.model_dump_json)
          status := if sd.score < SCORE_THRESHOLD then Status.FILTERED
            else Status.SCORED })
      | _, _ => Except.ok db

/-- The affiliation-extraction result (`AffiliationResponse`,
src/services/llm.py lines 20-24). -/
structure AffiliationResponse where
  affiliations : List PyStr := []
  main_company : Option PyStr := none
  main_university : Option PyStr := none
  main_affiliation : Option PyStr := none
deriving DecidableEq, Repr

/-- Library `json.dumps` on the affiliation list; stored after
sanitization, never read back by a claim, so escaping is elided. -/
def jsonDumpsStrList (xs : List PyStr) : PyStr :=
  [91] ++ joinCommaSpace (xs.map (fun x => [34] ++ x ++ [34])) ++ [93]

/-- Embedding of `process_paper_summary` (src/worker.py lines 66-106).
Collaborator outcomes as inputs: `extractResult` is what
`pdf_service.extract_text_from_url` would return (it is only called when
`paper.pdf_url` is truthy), `affResult` what `llm.extract_affiliations`
returns, `summaryText`/`summaryNoText` what `llm.summarize_paper` returns
with and without full text.  The local `aff_data` is assigned only in the
branch where text was obtained — line 76 assigns the unused name
`affiliations` instead — so it is modelled as bound (`some`) versus
unbound (`none`), and the `if aff_data:` guard at line 95 raises
UnboundLocalError in the unbound state before the summary can be
persisted. -/
def process_paper_summary (extractResult : Option PyStr)
    (affResult : Option AffiliationResponse)
    (summaryText summaryNoText : Option PyStr)
    (paper : Paper) (db : DB) : Except PyErr DB :=
  let full_text : Option PyStr :=
    if paper.pdf_url ≠ "" then extractResult else none
  let branch : Option (Option AffiliationResponse) × Option PyStr :=
    if pyTruthyStr full_text then (some affResult, summaryText)
    else (none, summaryNoText)
  match dbGet db paper.id with
  | none => Except.ok db
  | some db_paper =>
    let db_paper := if pyTruthyStr full_text then
        { db_paper with full_text := sanitize_text full_text }
      else db_paper
    match branch.1 with
    | none => Except.error PyErr.unboundLocalError
    | some affOpt =>
      let db_paper := match affOpt with
        | some a => { db_paper with
            affiliations := sanitize_text (some (jsonDumpsStrList a.affiliations))
            main_company := sanitize_text a.main_company
            main_university := sanitize_text a.main_university
            main_affiliation := sanitize_text a.main_affiliation }
        | none => db_paper
      let db_paper := if pyTruthyStr branch.2 then
          { db_paper with
            summary_personalized := sanitize_text branch.2
            status := Status.SUMMARIZED }
        else db_paper
      Except.ok (dbPut db db_paper)

/-- Errors of the manual-score endpoint. -/
inductive ApiErr where
  | badRequest
  | notFound
deriving DecidableEq, Repr

/-- Embedding of `update_paper_score` (src/main.py lines 239-261): range
check, lookup, then one commit setting userScore, score, a fixed reason
and the SCORED status.  Returns the committed row alongside the table. -/
def update_paper_score (paper_id : String) (score : Int) (db : DB) :
    Except ApiErr (DB × Paper) :=
  if score < 0 ∨ score > 100 then Except.error ApiErr.badRequest
  else
    match dbGet db paper_id with
    | none => Except.error ApiErr.notFound
    | some paper =>
      let paper := { paper with
        user_score := some score
        score := some score
        score_reason := some (strCodes "User assigned score")
        status := Status.SCORED }
      Except.ok (dbPut db paper, paper)

/-- The two concrete notification channels (src/services/notifier.py).
The function argument stands for the outcome of the external send call on
a given message text. -/
inductive Notifier where
  | telegram (send : PyStr → Bool)
  | pushover (send : PyStr → Bool)

/-- `send_message`, the one method both channel classes implement. -/
def Notifier.send_message : Notifier → PyStr → Bool
  | Notifier.telegram send, m => send m
  | Notifier.pushover send, m => send m

/-- Python attribute lookup of `send_messages`: neither the abstract
`Notifier` class nor either implementation defines such a method
(src/services/notifier.py lines 6-59), so the lookup fails for every
channel. -/
def Notifier.send_messages_attr : Notifier → Option (List PyStr → Bool) :=
  fun _ => none

/-- Day key of the publication timestamp, the `strftime` calendar-day
grouping key of src/worker.py line 152. -/
def dateKey (p : Paper) : Nat := p.published_at / 86400

/-- `x.score or 0`. -/
def scoreKey (p : Paper) : Int :=
  match p.score with
  | some s => if s = 0 then 0 else s
  | none => 0

def insertByScoreDesc (x : Paper) : List Paper → List Paper
  | [] => [x]
  | y :: ys =>
    if scoreKey y ≤ scoreKey x then x :: y :: ys else y :: insertByScoreDesc x ys

/-- Stable descending sort by score, as `sorted(key=..., reverse=True)`. -/
def sortByScoreDesc : List Paper → List Paper
  | [] => []
  | x :: xs => insertByScoreDesc x (sortByScoreDesc xs)

def insertDescNat (x : Nat) : List Nat → List Nat
  | [] => [x]
  | y :: ys => if y ≤ x then x :: y :: ys else y :: insertDescNat x ys

/-- `sorted(keys, reverse=True)` on day keys. -/
def sortDescNat : List Nat → List Nat
  | [] => []
  | x :: xs => insertDescNat x (sortDescNat xs)

/-- First 150 characters of the summary with newlines flattened to
spaces, src/worker.py line 167. -/
def summaryPreview (s : PyStr) : PyStr :=
  (s.take 150).map (fun c => if c = 10 then 32 else c)

/-- One digest entry (src/worker.py lines 161-169): rank, title, score
with optional affiliation, document link and summary preview; the
decorative glyphs of the source are elided, no claim reads this text. -/
def digestEntry (idx : Nat) (p : Paper) : PyStr :=
  strCodes (toString (idx + 1)) ++ strCodes ". " ++ strCodes p.title ++ [10] ++
  strCodes "Score: " ++
  strCodes (match p.score with | some s => toString s | none => "None") ++
  (if pyTruthyStr p.main_affiliation then
    strCodes " | " ++ (p.main_affiliation.getD []) else []) ++ [10] ++
  strCodes p.pdf_url ++ [10] ++
  (if pyTruthyStr p.summary_personalized then
    summaryPreview (p.summary_personalized.getD []) ++ strCodes "..." ++ [10]
  else []) ++ [10]

/-- One per-date digest message: header with day key and count, then the
entries ranked from 1. -/
def digestMessage (k : Nat) (ps : List Paper) : PyStr :=
  strCodes "Date " ++ strCodes (toString k) ++ strCodes " (" ++
    strCodes (toString ps.length) ++ strCodes " papers)" ++ [10] ++
  (ps.enum.flatMap (fun ip => digestEntry ip.1 ip.2))

/-- The digest batch of src/worker.py lines 148-170: group the papers by
publication day, order the groups newest first, order each group by score
descending, one rendered message per group. -/
def build_digest_messages (papers_to_notify : List Paper) : List PyStr :=
  let keys := sortDescNat ((papers_to_notify.map dateKey).dedup)
  keys.map (fun k =>
    digestMessage k (sortByScoreDesc
      (papers_to_notify.filter (fun p => dateKey p = k))))

/-- Embedding of the notification step of `run_worker` (src/worker.py
lines 139-182): collect the SUMMARIZED papers, and when there are any and
a channel is configured, render the digest messages and call
`notifier.send_messages(messages)` — an attribute lookup that fails on
every channel; only a successful delivery would mark the included papers
PUSHED in one follow-up commit. -/
def notify_step (notifier : Option Notifier) (db : DB) : Except PyErr DB :=
  let papers_to_notify := db.filter (fun p => p.status = Status.SUMMARIZED)
  if papers_to_notify.isEmpty then Except.ok db
  else
    match notifier with
    | none => Except.ok db
    | some n =>
      let messages := build_digest_messages papers_to_notify
      match n.send_messages_attr with
      | none => Except.error PyErr.attributeError
      | some send_messages =>
        if send_messages messages then
          Except.ok (papers_to_notify.foldl (fun d p =>
            match dbGet d p.id with
            | some q => dbPut d { q with status := Status.PUSHED }
            | none => d) db)
        else Except.ok db

/-- A SCORED paper with a document URL, for the C1 failing input. -/
def c1Paper : Paper :=
  { id := "p1", title := "T", pdf_url := "u", status := Status.SCORED,
    score := some 92 }

/-- Claim C1 (code bug): for a SCORED paper whose document-text extraction
returns nothing while narrative summarization would return a summary, the
summarization operation raises UnboundLocalError at the `if aff_data:`
persist guard — the no-text branch never assigns that local — so the
summary is not persisted and the status does not advance; the claim says
the absence of text is not an error and the operation completes without
raising, persisting the summary. -/
theorem summary_no_text_raises :
    process_paper_summary none none none (some [83]) c1Paper [c1Paper] =
      Except.error PyErr.unboundLocalError := rfl

/-- A NEW paper whose stored author column is the JSON text for the
single-letter author A, for the C2 failing input. -/
def c2Paper : Paper := { id := "p2", authors := [91, 34, 65, 34, 93] }

/-- Claim C2 (code bug): when the evaluator call fails (`score_paper`
returns None), the scoring operation is a no-op returning normally only
while no author of the paper is marked important; with the paper's author
marked important in the registry, line 49 reads `score_data.score` on None
and the operation raises AttributeError instead of swallowing the failure
(the store is still unmutated, as the raise precedes the persist). -/
theorem score_evaluator_failure :
    process_paper_score [] none c2Paper [c2Paper] = Except.ok [c2Paper] ∧
    process_paper_score [[65]] none c2Paper [c2Paper] =
      Except.error PyErr.attributeError := ⟨rfl, rfl⟩

/-- A SUMMARIZED paper ready for notification, for the C3 failing input. -/
def c3Paper : Paper :=
  { id := "p3", title := "T", pdf_url := "u", published_at := 100000,
    status := Status.SUMMARIZED, score := some 90,
    summary_personalized := some [83] }

/-- Claim C3 (code bug): no Notification Channel implementation provides a
`send_messages` operation — the base class and both channels define only
`send_message` — so the batch notification step raises AttributeError on
`notifier.send_messages(messages)` with any configured channel and at
least one SUMMARIZED paper; no paper is marked PUSHED (the raise precedes
the follow-up commit), but not by the success-gated path the claim
describes. -/
theorem notify_send_messages_missing :
    notify_step (some (Notifier.telegram (fun _ => true))) [c3Paper] =
      Except.error PyErr.attributeError := rfl

/-- A paper with a manual score that has since advanced to SUMMARIZED, the
C4 counterexample input (reachable: manual score 40, then the
summarization step advances the status). -/
def c4Paper : Paper :=
  { id := "p4", user_score := some 40, score := some 40,
    status := Status.SUMMARIZED }

/-- Claim C4 counterexample: on a paper with userScore set whose status is
SUMMARIZED, the scoring operation leaves the store untouched, so the
status stays SUMMARIZED — it does not become or stay SCORED as the claim
states. -/
theorem user_score_status_counterexample :
    process_paper_score [] none c4Paper [c4Paper] = Except.ok [c4Paper] ∧
    c4Paper.status ≠ Status.SCORED := ⟨rfl, by decide⟩

/-- Claim C4 (corrected): with userScore set the scoring operation is a
complete no-op — it returns normally with the store unchanged, so score,
scoreReason and status are all unchanged (in particular a paper the manual
score endpoint put in SCORED with score = userScore keeps exactly those
values under any later scoring run, forced or not); the manual endpoint is
what establishes score = userScore and status SCORED. -/
theorem user_score_suppresses_scoring (registry : List PyStr)
    (scoreRes : Option ScoreResponse) (paper : Paper) (db : DB) (u : Int)
    (h : paper.user_score = some u) :
    process_paper_score registry scoreRes paper db = Except.ok db ∧
    (∀ pid s db0 db1 p1, update_paper_score pid s db0 = Except.ok (db1, p1) →
      p1.user_score = some s ∧ p1.score = some s ∧ p1.status = Status.SCORED) := by
  constructor
  · unfold process_paper_score
    rw [h]
    rfl
  · intro pid s db0 db1 p1 hupd
    unfold update_paper_score at hupd
    by_cases hrange : s < 0 ∨ s > 100
    · rw [if_pos hrange] at hupd; cases hupd
    · rw [if_neg hrange] at hupd
      cases hfind : dbGet db0 pid with
      | none => rw [hfind] at hupd; cases hupd
      | some q =>
        rw [hfind] at hupd
        injection hupd with h2
        injection h2 with hdb hp
        subst hp
        exact ⟨rfl, rfl, rfl⟩

/-- Witness for C4 at the concrete SUMMARIZED paper with userScore 40. -/
theorem user_score_suppresses_scoring_witness :
    process_paper_score [] none c4Paper [c4Paper] = Except.ok [c4Paper] :=
  (user_score_suppresses_scoring [] none c4Paper [c4Paper] 40 rfl).1

/-- Claim C5: for a paper without userScore whose parsed author list holds
an author marked important in the registry, an evaluator score below 90 is
persisted as exactly 90 with status SCORED (90 clears the threshold 85),
and an evaluator score of 90 or more is persisted unchanged. -/
theorem important_author_boost (registry : List PyStr) (sd : ScoreResponse)
    (paper : Paper) (db : DB) (db_paper : Paper)
    (hus : paper.user_score = none)
    (himp : ∃ a ∈ authors_list paper.authors, a ∈ registry)
    (hdb : dbGet db paper.id = some db_paper) :
    ∃ db2, process_paper_score registry (some sd) paper db = Except.ok db2 ∧
      ∃ p2, dbGet db2 paper.id = some p2 ∧
        (sd.score < 90 → p2.score = some 90 ∧ p2.status = Status.SCORED) ∧
        (90 ≤ sd.score → p2.score = some sd.score) := by
  have himpB : (authors_list paper.authors).any
      (fun a => registry.contains a) = true := by
    rw [List.any_eq_true]
    obtain ⟨a, ha, har⟩ := himp
    exact ⟨a, ha, by simpa [List.contains, List.elem_iff] using har⟩
  unfold process_paper_score
  rw [hus, himpB]
  simp only [Option.isSome_none, Bool.false_eq_true, if_false, if_true, hdb]
  refine ⟨_, rfl, ?_⟩
  set sd2 := if sd.score < 90 then { sd with score := 90 } else sd with hsd2
  set p2 := { db_paper with
    score := some sd2.score
    score_reason := sanitize_text (some sd2.model_dump_json)
    status := if sd2.score < SCORE_THRESHOLD then Status.FILTERED
      else Status.SCORED } with hp2
  have hid : p2.id = paper.id := by
    rw [hp2]
    exact dbGet_id db paper.id db_paper hdb
  have hsome : (dbGet db paper.id).isSome = true := by rw [hdb]; rfl
  refine ⟨p2, dbGet_dbPut db paper.id p2 hid hsome, ?_, ?_⟩
  · intro hlt
    constructor
    · show some sd2.score = some 90
      rw [hsd2, if_pos hlt]
    · show (if sd2.score < SCORE_THRESHOLD then Status.FILTERED
        else Status.SCORED) = Status.SCORED
      rw [hsd2, if_pos hlt]
      rfl
  · intro hge
    show some sd2.score = some sd.score
    rw [hsd2, if_neg (not_lt.mpr hge)]

/-- A paper whose stored author column is the JSON text for the single
author A, for the C5 witness. -/
def c5Paper : Paper := { id := "p5", authors := [91, 34, 65, 34, 93] }

/-- An evaluator result scoring 50, for the C5 witness. -/
def c5Score : ScoreResponse := { score := 50 }

/-- Witness for C5: author A is marked important and the evaluator returns
50, so the persisted score is exactly 90 and the status SCORED. -/
theorem important_author_boost_witness :
    ∃ db2, process_paper_score [[65]] (some c5Score) c5Paper [c5Paper] =
        Except.ok db2 ∧
      ∃ p2, dbGet db2 c5Paper.id = some p2 ∧
        (c5Score.score < 90 → p2.score = some 90 ∧ p2.status = Status.SCORED) ∧
        (90 ≤ c5Score.score → p2.score = some c5Score.score) :=
  important_author_boost [[65]] c5Score c5Paper [c5Paper] c5Paper rfl
    (by decide) rfl

/-- A stored paper with creation-time `updated_at` 111, for the C8 failing
input. -/
def c8Paper : Paper := { id := "p8", authors := [91, 93], updated_at := 111 }

/-- An evaluator result scoring 92, for the C8 failing input. -/
def c8Score : ScoreResponse := { score := 92 }

/-- Claim C8 (code bug): pipeline writes do not bump `updated_at` — the
column only has a creation-time default and no write path assigns it.
After the scoring persist writes score 92, and after the manual-score
endpoint writes score 40, the stored `updated_at` still holds its
creation value 111. -/
theorem updated_at_not_bumped :
    (∃ db2 p2, process_paper_score [] (some c8Score) c8Paper [c8Paper] =
        Except.ok db2 ∧
      dbGet db2 "p8" = some p2 ∧ p2.score = some 92 ∧
      p2.status = Status.SCORED ∧ p2.updated_at = 111) ∧
    (∃ db3 p3, update_paper_score "p8" 40 [c8Paper] = Except.ok (db3, p3) ∧
      p3.score = some 40 ∧ p3.updated_at = 111) := by
  refine ⟨⟨_, _, rfl, rfl, rfl, rfl, rfl⟩, ⟨_, _, rfl, rfl, rfl⟩⟩

end PaperAgent
